import Mathlib

/-!
Shallow embedding of the weather app's forecast fallback resolver
(`getForecast10Days`, `getHourly24` from `options.js`) and raster climate
classifier (`getClimate` from `script.js`), together with theorems settling
the specification claims.

Conventions of the embedding:
* JS numbers that carry temperatures and coordinates are modelled as `ℚ`
  (all arithmetic the claims exercise is exact).
* `Math.min()` / `Math.max()` over an empty spread yield the IEEE infinities;
  these are modelled by the extended type `XRat`.
* A fetch that throws (network or JSON-parse failure) is `FetchResult.netFail`;
  a completed fetch is `FetchResult.resp ok body` where `ok` is `Response.ok`
  and `body` the parsed JSON field of interest (`none` when the field is
  absent or not an array, mirroring the `Array.isArray` guards).
* Thrown errors are `Except.error` values of type `FcError`; the error object
  rethrown from the third tier's own fetch is `FcError.network`.
-/

/-! ### Extended rationals: JS numbers including the infinities -/

/-- Extended rationals: a JS number that is either a finite value or one of
the infinities produced by `Math.min()` / `Math.max()` of an empty list. -/
inductive XRat where
  | negInf : XRat
  | fin : ℚ → XRat
  | posInf : XRat
deriving DecidableEq, Repr

/-- JS `<=` on extended rationals. -/
def xle : XRat → XRat → Bool
  | .negInf, _ => true
  | .fin _, .negInf => false
  | .fin a, .fin b => a ≤ b
  | .fin _, .posInf => true
  | .posInf, .posInf => true
  | .posInf, _ => false

/-- JS `Math.round` on a finite value: floor of x + 1/2 (round half toward +∞). -/
def jsRoundQ (q : ℚ) : ℤ := ⌊q + 1/2⌋

/-- JS `Math.round`, which maps the infinities to themselves. -/
def jsRound : XRat → XRat
  | .negInf => .negInf
  | .posInf => .posInf
  | .fin q => .fin (jsRoundQ q)

/-- JS `Math.min(...l)`: `+Infinity` on the empty list. -/
def jsMinList : List ℚ → XRat
  | [] => .posInf
  | t :: rest =>
    match jsMinList rest with
    | .posInf => .fin t
    | .fin m => .fin (min t m)
    | .negInf => .negInf

/-- JS `Math.max(...l)`: `-Infinity` on the empty list. -/
def jsMaxList : List ℚ → XRat
  | [] => .negInf
  | t :: rest =>
    match jsMaxList rest with
    | .negInf => .fin t
    | .fin m => .fin (max t m)
    | .posInf => .posInf

/-! ### Climate classifier (`getClimate` in script.js) -/

/-- The parsed georaster object: `values` models `georaster.values[0]`,
the single band read by the code, indexed `[row][column]`. -/
structure Georaster where
  xmin : ℚ
  ymax : ℚ
  pixelWidth : ℚ
  pixelHeight : ℚ
  width : Nat
  height : Nat
  values : List (List Int)
deriving Repr

/-- The `{ climateCode, climateType }` result object of `getClimate`. -/
structure ClimateInfo where
  climateCode : Option Int
  climateType : String
deriving DecidableEq, Repr

/-- The fixed `koppenClasses` lookup table from script.js. -/
def koppenClasses : List (Int × String) :=
  [(0, "No data"), (1, "Tropical (A)"), (2, "Arid (B)"),
   (3, "Temperate (C)"), (4, "Cold (D)"), (5, "Polar (E)")]

/-- JS property lookup `val in koppenClasses` together with the read
`koppenClasses[val].name`, as a single association-list find. -/
def koppenFind : List (Int × String) → Int → Option String
  | [], _ => none
  | (c, n) :: rest, v => if c = v then some n else koppenFind rest v

/-- Embedding of `getClimate(lat, lon, georaster)` from script.js.
`georaster = none` models a null/undefined raster argument. -/
def getClimate (lat lon : ℚ) (georaster : Option Georaster) : ClimateInfo :=
  match georaster with
  | none => { climateCode := none, climateType := "Unknown" }
  | some g =>
    let xPixel : ℤ := ⌊(lon - g.xmin) / g.pixelWidth⌋
    let yPixel : ℤ := ⌊(g.ymax - lat) / |g.pixelHeight|⌋
    if 0 ≤ yPixel ∧ yPixel < (g.height : ℤ) ∧ 0 ≤ xPixel ∧ xPixel < (g.width : ℤ) then
      let v : Int := (g.values.getD yPixel.toNat []).getD xPixel.toNat 0
      { climateCode := some v,
        climateType :=
          match koppenFind koppenClasses v with
          | some n => n
          | none => s!"Code {v}" }
    else { climateCode := none, climateType := "Unknown" }

/-- The concrete raster of the spec's scenario: origin (lat 90, lon −180),
cell size 0.1° × 0.1°, 3600 columns, 1800 rows.  The value grid is sparse:
only cell [799][2000] holds a nonzero code (3). -/
def scenarioGrid : Georaster :=
  { xmin := -180
  , ymax := 90
  , pixelWidth := 1/10
  , pixelHeight := 1/10
  , width := 3600
  , height := 1800
  , values := List.replicate 799 [] ++ [List.replicate 2000 0 ++ [3]] }

/-- C2: for every coordinate and loaded grid, `getClimate` computes
column = ⌊(lon − xmin)/pixelWidth⌋ and row = ⌊(ymax − lat)/|pixelHeight|⌋,
and when (row, column) is inside [0, height) × [0, width) it returns the
stored value at `values[row][column]` as the code, named from the fixed
table when present there and as "Code {value}" otherwise. -/
theorem getClimate_reads_cell (lat lon : ℚ) (g : Georaster) (row col : ℤ)
    (hcol : col = ⌊(lon - g.xmin) / g.pixelWidth⌋)
    (hrow : row = ⌊(g.ymax - lat) / |g.pixelHeight|⌋)
    (hr0 : 0 ≤ row) (hr1 : row < (g.height : ℤ))
    (hc0 : 0 ≤ col) (hc1 : col < (g.width : ℤ)) :
    getClimate lat lon (some g) =
      { climateCode := some ((g.values.getD row.toNat []).getD col.toNat 0),
        climateType :=
          match koppenFind koppenClasses ((g.values.getD row.toNat []).getD col.toNat 0) with
          | some n => n
          | none => s!"Code {(g.values.getD row.toNat []).getD col.toNat 0}" } := by
  subst hcol hrow
  simp only [getClimate]
  rw [if_pos ⟨hr0, hr1, hc0, hc1⟩]

/-- Witness for C2: the spec's concrete scenario.  On `scenarioGrid` the
coordinate (lat 10.05, lon 20.05) maps to column 2000, row 799, and the
lookup reads `values[799][2000]`. -/
theorem getClimate_reads_cell_witness :
    ((2000 : ℤ) = ⌊((401 : ℚ)/20 - scenarioGrid.xmin) / scenarioGrid.pixelWidth⌋) ∧
    ((799 : ℤ) = ⌊(scenarioGrid.ymax - (201 : ℚ)/20) / |scenarioGrid.pixelHeight|⌋) ∧
    getClimate ((201 : ℚ)/20) ((401 : ℚ)/20) (some scenarioGrid) =
      { climateCode := some ((scenarioGrid.values.getD 799 []).getD 2000 0),
        climateType :=
          match koppenFind koppenClasses ((scenarioGrid.values.getD 799 []).getD 2000 0) with
          | some n => n
          | none => s!"Code {(scenarioGrid.values.getD 799 []).getD 2000 0}" } := by
  have ex : scenarioGrid.xmin = -180 := rfl
  have ey : scenarioGrid.ymax = 90 := rfl
  have ew : scenarioGrid.pixelWidth = 1/10 := rfl
  have eh : scenarioGrid.pixelHeight = 1/10 := rfl
  have eW : scenarioGrid.width = 3600 := rfl
  have eH : scenarioGrid.height = 1800 := rfl
  have hcol : (2000 : ℤ) = ⌊((401 : ℚ)/20 - scenarioGrid.xmin) / scenarioGrid.pixelWidth⌋ := by
    rw [ex, ew, eq_comm, Int.floor_eq_iff]; norm_num
  have hrow : (799 : ℤ) = ⌊(scenarioGrid.ymax - (201 : ℚ)/20) / |scenarioGrid.pixelHeight|⌋ := by
    rw [ey, eh, show |(1 : ℚ)/10| = 1/10 by norm_num, eq_comm, Int.floor_eq_iff]; norm_num
  refine ⟨hcol, hrow, ?_⟩
  have main := getClimate_reads_cell ((201 : ℚ)/20) ((401 : ℚ)/20) scenarioGrid 799 2000
    hcol hrow (by norm_num) (by rw [eH]; norm_num) (by norm_num) (by rw [eW]; norm_num)
  rw [show ((799 : ℤ)).toNat = 799 from rfl, show ((2000 : ℤ)).toNat = 2000 from rfl] at main
  exact main

/-- C9: `getClimate` is total and returns exactly
`{ climateCode := none, climateType := "Unknown" }` both when the raster is
absent and when the computed (row, column) falls outside
[0, height) × [0, width). -/
theorem getClimate_unknown (lat lon : ℚ) (g : Georaster) (row col : ℤ)
    (hcol : col = ⌊(lon - g.xmin) / g.pixelWidth⌋)
    (hrow : row = ⌊(g.ymax - lat) / |g.pixelHeight|⌋)
    (hout : row < 0 ∨ (g.height : ℤ) ≤ row ∨ col < 0 ∨ (g.width : ℤ) ≤ col) :
    getClimate lat lon none = { climateCode := none, climateType := "Unknown" } ∧
    getClimate lat lon (some g) = { climateCode := none, climateType := "Unknown" } := by
  subst hcol hrow
  refine ⟨rfl, ?_⟩
  simp only [getClimate]
  rw [if_neg]
  intro ⟨h1, h2, h3, h4⟩
  rcases hout with h | h | h | h
  · exact absurd h1 (not_le.mpr h)
  · exact absurd h2 (not_lt.mpr h)
  · exact absurd h3 (not_le.mpr h)
  · exact absurd h4 (not_lt.mpr h)

/-- Witness for C9: on `scenarioGrid` the coordinate (lat 95, lon 20.05)
computes row −50, which is out of bounds, so the result is Unknown; the
missing-raster case is Unknown as well. -/
theorem getClimate_unknown_witness :
    getClimate (95 : ℚ) ((401 : ℚ)/20) none =
      { climateCode := none, climateType := "Unknown" } ∧
    getClimate (95 : ℚ) ((401 : ℚ)/20) (some scenarioGrid) =
      { climateCode := none, climateType := "Unknown" } := by
  have ex : scenarioGrid.xmin = -180 := rfl
  have ey : scenarioGrid.ymax = 90 := rfl
  have ew : scenarioGrid.pixelWidth = 1/10 := rfl
  have eh : scenarioGrid.pixelHeight = 1/10 := rfl
  have hcol : (2000 : ℤ) = ⌊((401 : ℚ)/20 - scenarioGrid.xmin) / scenarioGrid.pixelWidth⌋ := by
    rw [ex, ew, eq_comm, Int.floor_eq_iff]; norm_num
  have hrow : (-50 : ℤ) = ⌊(scenarioGrid.ymax - (95 : ℚ)) / |scenarioGrid.pixelHeight|⌋ := by
    rw [ey, eh, show |(1 : ℚ)/10| = 1/10 by norm_num, eq_comm, Int.floor_eq_iff]; norm_num
  exact getClimate_unknown (95 : ℚ) ((401 : ℚ)/20) scenarioGrid (-50) 2000
    hcol hrow (Or.inl (by norm_num))

/-! ### Forecast resolver data model (options.js) -/

/-- One normalized weather object `{ icon, description }`. -/
structure WeatherInfo where
  icon : String
  description : String
deriving DecidableEq, Repr

/-- One daily entry as held in the `daily` arrays of the One Call responses
or synthesized by the third tier: `{ dt, temp: { min, max }, weather }`. -/
structure DailyEntry where
  dt : Nat
  tempMin : XRat
  tempMax : XRat
  weather : List WeatherInfo
deriving DecidableEq, Repr

/-- One raw three-hour sample of the 5-day/3-hour forecast `list`: `dt` in
seconds, `main` holds `main.temp` when the `main` object is present, and
`icon` / `description` hold `weather[0]?.icon` / `weather[0]?.description`
(`none` when the `weather` array or the field is missing). -/
structure Sample where
  dt : Nat
  main : Option ℚ
  icon : Option String
  description : Option String
deriving DecidableEq, Repr

/-- One entry of the `hourly` arrays of the One Call responses. -/
structure HourlySrc where
  dt : Nat
  temp : ℚ
  icon : Option String
  description : Option String
deriving DecidableEq, Repr

/-- One normalized hourly entry `{ dt, temp, icon, description }`. -/
structure HourlyEntry where
  dt : Nat
  temp : ℚ
  icon : String
  description : String
deriving DecidableEq, Repr

/-- Outcome of one `fetch` plus `json()` round trip: a thrown network or
parse error, or a completed response with its `ok` flag and parsed body. -/
inductive FetchResult (α : Type) where
  | netFail : FetchResult α
  | resp : Bool → α → FetchResult α
deriving DecidableEq, Repr

/-- A thrown error: the rethrown fetch/parse error of the third tier
(`network`), or an `Error(message)` constructed by the code itself. -/
inductive FcError where
  | network : FcError
  | msg : String → FcError
deriving DecidableEq, Repr

/-- JS truthiness filter on an optional string: kept only when present and
nonempty (the empty string is falsy). -/
def truthyStr : Option String → Option String
  | some s => if s = "" then none else some s
  | none => none

/-- JS `x || d` for an optional string `x` and a default `d`. -/
def orDefault (o : Option String) (d : String) : String :=
  match o with
  | some s => if s = "" then d else s
  | none => d

/-- The count clamp `Math.min(10, Math.max(1, count))`, as a list length. -/
def clampCount (count : ℤ) : Nat := (min 10 (max 1 count)).toNat

/-- One of the first two daily tiers: `some entries` when the tier returns
(response ok and non-empty `daily` array), `none` when the tier yields
nothing (network failure, non-ok status, absent or empty array). -/
def tierDaily (t : FetchResult (Option (List DailyEntry))) (count : ℤ) :
    Option (List DailyEntry) :=
  match t with
  | .netFail => none
  | .resp ok body =>
    if ok then
      let daily := body.getD []
      if daily.isEmpty then none else some (daily.take (clampCount count))
    else none

/-! ### Third-tier day-bucket aggregation -/

/-- UTC calendar-day key of a sample: the date portion of
`new Date(dt * 1000).toISOString()`, represented as days since the epoch
(string comparison of `YYYY-MM-DD` keys agrees with this number). -/
def dayKey (s : Sample) : Nat := s.dt / 86400

/-- One day bucket under construction: pushed temperatures, insertion-ordered
icon and description counters, and the `dt` of the first sample of the day. -/
structure DayRec where
  temps : List ℚ
  icons : List (String × Nat)
  descs : List (String × Nat)
  dt : Nat
deriving DecidableEq, Repr

/-- The fresh bucket `{ temps: [], icons: {}, descs: {}, dt }`. -/
def emptyRec (dt : Nat) : DayRec :=
  { temps := [], icons := [], descs := [], dt := dt }

/-- JS `obj[k] = (obj[k] || 0) + 1` on an insertion-ordered counter object:
an existing key keeps its position, a new key is appended. -/
def bumpCount : List (String × Nat) → String → List (String × Nat)
  | [], k => [(k, 1)]
  | (k', n) :: rest, k =>
    if k' = k then (k, n + 1) :: rest else (k', n) :: bumpCount rest k

/-- Folding one sample into its day bucket (the loop body): a present `main`
pushes its temperature, a truthy icon and description bump their counters. -/
def updRec (item : Sample) (r : DayRec) : DayRec :=
  let r1 :=
    match item.main with
    | some t => { r with temps := r.temps ++ [t] }
    | none => r
  let r2 :=
    match truthyStr item.icon with
    | some ic => { r1 with icons := bumpCount r1.icons ic }
    | none => r1
  match truthyStr item.description with
  | some d => { r2 with descs := bumpCount r2.descs d }
  | none => r2

/-- First-match association lookup, modelling `Map.get`. -/
def getAssoc : List (Nat × DayRec) → Nat → Option DayRec
  | [], _ => none
  | (k', v) :: rest, k => if k' = k then some v else getAssoc rest k

/-- Insertion-ordered association update, modelling `Map.set`: an existing
key is updated in place, a new key is appended. -/
def setAssoc : List (Nat × DayRec) → Nat → DayRec → List (Nat × DayRec)
  | [], k, v => [(k, v)]
  | (k', v') :: rest, k, v =>
    if k' = k then (k, v) :: rest else (k', v') :: setAssoc rest k v

/-- The body of the `for (const item of list)` grouping loop. -/
def insertSample (m : List (Nat × DayRec)) (item : Sample) : List (Nat × DayRec) :=
  let k := dayKey item
  let r0 := (getAssoc m k).getD (emptyRec item.dt)
  setAssoc m k (updRec item r0)

/-- The whole grouping loop: the `byDay` map in insertion order. -/
def buildBuckets (list : List Sample) : List (Nat × DayRec) :=
  list.foldl insertSample []

/-- Head of `Object.entries(counts).sort((a, b) => b[1] - a[1])`: the first
inserted entry among those with the maximal count (the stable sort keeps
insertion order between equal counts). -/
def topEntry : List (String × Nat) → Option (String × Nat)
  | [] => none
  | (k, n) :: rest =>
    match topEntry rest with
    | none => some (k, n)
    | some (k', n') => if n < n' then some (k', n') else some (k, n)

/-- Synthesis of one daily entry from a finished bucket: rounded min and max
of the pushed temperatures and the dominant icon and description, with the
falsy-value defaults `"01d"` and `""` of the source. -/
def synthEntry (r : DayRec) : DailyEntry :=
  let topIcon :=
    match topEntry r.icons with
    | some (k, _) => if k = "" then "01d" else k
    | none => "01d"
  let topDesc :=
    match topEntry r.descs with
    | some (k, _) => k
    | none => ""
  { dt := r.dt
  , tempMin := jsRound (jsMinList r.temps)
  , tempMax := jsRound (jsMaxList r.temps)
  , weather := [{ icon := topIcon, description := topDesc }] }

/-- The key-ascending order of `.sort((a, b) => (a[0] < b[0] ? -1 : 1))` on
the bucket entries (all keys are distinct). -/
def keyLE (p q : Nat × DayRec) : Prop := p.1 ≤ q.1

instance : DecidableRel keyLE := fun p q => Nat.decLe p.1 q.1

instance : IsTotal (Nat × DayRec) keyLE := ⟨fun p q => Nat.le_total p.1 q.1⟩

instance : IsTrans (Nat × DayRec) keyLE := ⟨fun _ _ _ h1 h2 => Nat.le_trans h1 h2⟩

/-- The third tier's day list: buckets sorted ascending by day key, truncated
to the clamped count, each mapped to a synthesized daily entry. -/
def tier3Days (body : Option (List Sample)) (count : ℤ) : List DailyEntry :=
  ((List.insertionSort keyLE (buildBuckets (body.getD []))).take
      (clampCount count)).map fun p => synthEntry p.2

/-- The whole third-tier attempt: a thrown fetch/parse error or a non-ok
status propagates out of the rethrowing catch; an ok response yields the
synthesized days, returned when non-empty; otherwise control reaches the
final `throw new Error("No forecast data available")`. -/
def tier3Result (t : FetchResult (Option (List Sample))) (count : ℤ) :
    Except FcError (List DailyEntry) :=
  match t with
  | .netFail => .error .network
  | .resp ok body =>
    if ok then
      let days := tier3Days body count
      if days.isEmpty then .error (.msg "No forecast data available") else .ok days
    else .error (.msg "forecast 3h not available")

/-- Embedding of `getForecast10Days(lat, lon, count)` from options.js, as a
function of the requested count and the three tier fetch outcomes. -/
def getForecast10Days (count : ℤ)
    (t1 t2 : FetchResult (Option (List DailyEntry)))
    (t3 : FetchResult (Option (List Sample))) :
    Except FcError (List DailyEntry) :=
  match tierDaily t1 count with
  | some res => .ok res
  | none =>
    match tierDaily t2 count with
    | some res => .ok res
    | none => tier3Result t3 count

/-! ### Hourly resolver (`getHourly24` in options.js) -/

/-- Normalization of one `hourly` entry (the `.map` of the first two tiers). -/
def hourlyEntryOf (h : HourlySrc) : HourlyEntry :=
  { dt := h.dt, temp := h.temp
  , icon := orDefault h.icon "01d", description := orDefault h.description "" }

/-- One of the first two hourly tiers: `some entries` when the response is ok
and the first 24 hourly entries are non-empty, else `none`. -/
def tierHourly (t : FetchResult (Option (List HourlySrc))) : Option (List HourlyEntry) :=
  match t with
  | .netFail => none
  | .resp ok body =>
    if ok then
      let arr := (body.getD []).take 24
      if arr.isEmpty then none else some (arr.map hourlyEntryOf)
    else none

/-- Conversion of one raw three-hour sample in the hourly fallback, with
`temp` given by `it.main?.temp ?? 0`. -/
def sampleToHourly (it : Sample) : HourlyEntry :=
  { dt := it.dt, temp := it.main.getD 0
  , icon := orDefault it.icon "01d", description := orDefault it.description "" }

/-- Embedding of `getHourly24(lat, lon)` from options.js: two One Call hourly
tiers, then the first nine three-hour samples passed through, capped at 24,
with no emptiness check on the final fallback. -/
def getHourly24 (t1 t2 : FetchResult (Option (List HourlySrc)))
    (t3 : FetchResult (Option (List Sample))) :
    Except FcError (List HourlyEntry) :=
  match tierHourly t1 with
  | some res => .ok res
  | none =>
    match tierHourly t2 with
    | some res => .ok res
    | none =>
      match t3 with
      | .netFail => .error .network
      | .resp ok body =>
        if ok then
          .ok ((((body.getD []).take 9).map sampleToHourly).take 24)
        else .error (.msg "forecast 3h not available")

/-! ### Shared helper lemmas on the resolver -/

/-- The clamped count is always at least one. -/
theorem clampCount_pos (count : ℤ) : 1 ≤ clampCount count := by
  unfold clampCount
  omega

/-- A tier that returns does so with at most the clamped count of entries. -/
theorem tierDaily_length (t : FetchResult (Option (List DailyEntry))) (count : ℤ)
    (res : List DailyEntry) (h : tierDaily t count = some res) :
    res.length ≤ clampCount count := by
  cases t with
  | netFail => simp [tierDaily] at h
  | resp ok body =>
    simp only [tierDaily] at h
    split at h
    · split at h
      · exact absurd h (by simp)
      · cases h
        simp [List.length_take]
    · exact absurd h (by simp)

/-- A tier that returns does so with a non-empty list. -/
theorem tierDaily_ne_nil (t : FetchResult (Option (List DailyEntry))) (count : ℤ)
    (res : List DailyEntry) (h : tierDaily t count = some res) :
    res ≠ [] := by
  cases t with
  | netFail => simp [tierDaily] at h
  | resp ok body =>
    simp only [tierDaily] at h
    split at h
    · split at h
      · exact absurd h (by simp)
      · rename_i hfalse
        cases h
        intro hcon
        have h1 := clampCount_pos count
        rw [List.take_eq_nil_iff] at hcon
        rcases hcon with h' | h'
        · omega
        · exact hfalse (by rw [h']; rfl)
    · exact absurd h (by simp)

/-- The third tier is bounded by the clamped count as well. -/
theorem tier3Days_length (body : Option (List Sample)) (count : ℤ) :
    (tier3Days body count).length ≤ clampCount count := by
  unfold tier3Days
  simp [List.length_take]

/-! ### C4: the primary tier short-circuits -/

/-- C4: when the primary tier responds ok with a non-empty daily array of
length at least count (count in [1, 10]), the call returns exactly the first
count entries of that array, unmodified and in order, whatever the second
and third tier outcomes are. -/
theorem firstTier_returns_prefix (count : ℤ) (daily : List DailyEntry)
    (t2 : FetchResult (Option (List DailyEntry))) (t3 : FetchResult (Option (List Sample)))
    (h1 : 1 ≤ count) (h10 : count ≤ 10) (hlen : count ≤ (daily.length : ℤ)) :
    getForecast10Days count (.resp true (some daily)) t2 t3 = .ok (daily.take count.toNat) ∧
    (daily.take count.toNat).length = count.toNat := by
  have hne : daily.isEmpty = false := by
    cases daily with
    | nil => simp at hlen; omega
    | cons a l => rfl
  have hclamp : clampCount count = count.toNat := by
    unfold clampCount
    omega
  constructor
  · unfold getForecast10Days tierDaily
    simp [hne, hclamp]
  · rw [List.length_take]
    omega

/-- Witness daily array for C4. -/
def dailyThree : List DailyEntry :=
  [ { dt := 1000, tempMin := .fin 1, tempMax := .fin 5
    , weather := [{ icon := "01d", description := "clear sky" }] }
  , { dt := 87400, tempMin := .fin 2, tempMax := .fin 6, weather := [] }
  , { dt := 173800, tempMin := .fin 0, tempMax := .fin 1, weather := [] } ]

/-- Witness for C4: a concrete three-entry daily array with count 2. -/
theorem firstTier_returns_prefix_witness :
    getForecast10Days 2 (.resp true (some dailyThree)) .netFail .netFail =
      .ok (dailyThree.take (2 : ℤ).toNat) ∧
    (dailyThree.take (2 : ℤ).toNat).length = (2 : ℤ).toNat :=
  firstTier_returns_prefix 2 dailyThree .netFail .netFail (by norm_num) (by norm_num)
    (by norm_num [dailyThree])

/-! ### C8: the count clamp -/

/-- C8: for every requested count, including values below 1 or above 10, a
successful call returns at most min(10, max(1, count)) entries, a bound that
itself always lies inside [1, 10]. -/
theorem count_clamped (count : ℤ) (t1 t2 : FetchResult (Option (List DailyEntry)))
    (t3 : FetchResult (Option (List Sample))) (l : List DailyEntry)
    (h : getForecast10Days count t1 t2 t3 = .ok l) :
    (l.length : ℤ) ≤ min 10 (max 1 count) ∧
    1 ≤ min 10 (max 1 count) ∧ min 10 (max 1 count) ≤ 10 := by
  have hb : l.length ≤ clampCount count := by
    unfold getForecast10Days at h
    cases e1 : tierDaily t1 count with
    | some res => rw [e1] at h; cases h; exact tierDaily_length t1 count l e1
    | none =>
      rw [e1] at h
      cases e2 : tierDaily t2 count with
      | some res => rw [e2] at h; cases h; exact tierDaily_length t2 count l e2
      | none =>
        rw [e2] at h
        unfold tier3Result at h
        cases t3 with
        | netFail => exact absurd h (by simp)
        | resp ok body =>
          simp only at h
          split at h
          · split at h
            · exact absurd h (by simp)
            · cases h
              exact tier3Days_length body count
          · exact absurd h (by simp)
  refine ⟨?_, by omega, by omega⟩
  have : (clampCount count : ℤ) = min 10 (max 1 count) := by
    unfold clampCount
    omega
  omega

/-- Witness for C8: a requested count of 25 with a single-entry primary tier;
the returned list has one entry, within the clamp. -/
theorem count_clamped_witness :
    ((List.take (clampCount 25) dailyThree).length : ℤ) ≤ min 10 (max 1 25) ∧
    1 ≤ min 10 (max 1 (25 : ℤ)) ∧ min 10 (max 1 (25 : ℤ)) ≤ 10 :=
  count_clamped 25 (.resp true (some dailyThree)) .netFail .netFail
    (List.take (clampCount 25) dailyThree) (by rfl)

/-! ### C3: exhaustion failure semantics -/

/-- C3 counterexample: when all three tiers suffer a network failure, the
error raised is the third tier's own rethrown fetch error, which is not the
"No forecast data available" error the claim names for that case. -/
theorem allTiers_networkFail_error :
    getForecast10Days 10 .netFail .netFail .netFail = .error .network ∧
    FcError.network ≠ FcError.msg "No forecast data available" :=
  ⟨rfl, by decide⟩

/-- C3 amended: a successful call never returns an empty list, and when the
first two tiers yield nothing while the third tier's fetch succeeds but
synthesizes no day, the call fails with exactly the
"No forecast data available" error; a third-tier fetch failure propagates
its own error instead. -/
theorem no_empty_success (count : ℤ) (t1 t2 : FetchResult (Option (List DailyEntry)))
    (t3 : FetchResult (Option (List Sample))) :
    (∀ l, getForecast10Days count t1 t2 t3 = .ok l → l ≠ []) ∧
    (tierDaily t1 count = none → tierDaily t2 count = none →
      ∀ body, t3 = .resp true body → tier3Days body count = [] →
        getForecast10Days count t1 t2 t3 = .error (.msg "No forecast data available")) := by
  constructor
  · intro l h
    unfold getForecast10Days at h
    cases e1 : tierDaily t1 count with
    | some res => rw [e1] at h; cases h; exact tierDaily_ne_nil t1 count l e1
    | none =>
      rw [e1] at h
      cases e2 : tierDaily t2 count with
      | some res => rw [e2] at h; cases h; exact tierDaily_ne_nil t2 count l e2
      | none =>
        rw [e2] at h
        unfold tier3Result at h
        cases t3 with
        | netFail => exact absurd h (by simp)
        | resp ok body =>
          simp only at h
          split at h
          · split at h
            · exact absurd h (by simp)
            · rename_i hfalse
              cases h
              intro hcon
              exact hfalse (by rw [hcon]; rfl)
          · exact absurd h (by simp)
  · intro h1 h2 body ht3 hdays
    subst ht3
    unfold getForecast10Days
    rw [h1, h2]
    unfold tier3Result
    simp [hdays]

/-- Witness for C3 amended: two network failures followed by an ok third
fetch whose list is empty produce the "No forecast data available" error. -/
theorem no_empty_success_witness :
    getForecast10Days 10 .netFail .netFail (.resp true (some [])) =
      .error (.msg "No forecast data available") :=
  (no_empty_success 10 .netFail .netFail (.resp true (some []))).2
    rfl rfl (some []) rfl rfl

/-! ### C5: swallowed tier failures versus the propagating third fetch -/

/-- C5: a network/parse failure or a non-ok status at the first or second
tier yields nothing at that tier, so the next tier is attempted with the
result determined by the remaining tiers alone; a third-tier fetch failure
propagates to the caller as a hard failure. -/
theorem tier_failure_semantics (count : ℤ)
    (t1 t2 : FetchResult (Option (List DailyEntry)))
    (t3 : FetchResult (Option (List Sample))) (b : Option (List DailyEntry)) :
    tierDaily .netFail count = none ∧
    tierDaily (.resp false b) count = none ∧
    (tierDaily t1 count = none →
      getForecast10Days count t1 t2 t3 = getForecast10Days count .netFail t2 t3) ∧
    (tierDaily t1 count = none → tierDaily t2 count = none →
      getForecast10Days count t1 t2 t3 = tier3Result t3 count) ∧
    (tierDaily t1 count = none → tierDaily t2 count = none → t3 = .netFail →
      getForecast10Days count t1 t2 t3 = .error .network) := by
  refine ⟨rfl, rfl, ?_, ?_, ?_⟩
  · intro h1
    unfold getForecast10Days
    rw [h1]
    rfl
  · intro h1 h2
    unfold getForecast10Days
    rw [h1, h2]
  · intro h1 h2 ht3
    subst ht3
    unfold getForecast10Days
    rw [h1, h2]
    rfl

/-- Witness for C5: a non-ok first tier and an ok-but-empty second tier fall
through to a failing third fetch, whose error propagates. -/
theorem tier_failure_semantics_witness :
    getForecast10Days 10 (.resp false none) (.resp true (some [])) .netFail =
      .error .network :=
  (tier_failure_semantics 10 (.resp false none) (.resp true (some [])) .netFail
    none).2.2.2.2 rfl rfl rfl

/-! ### C6: the hourly call does not fail on exhaustion -/

/-- C6 counterexample: with the first two hourly tiers failing and the third
tier's fetch succeeding with an empty list, `getHourly24` returns the empty
list as a success instead of raising a "no forecast data" error. -/
theorem getHourly24_empty_success :
    getHourly24 .netFail .netFail (.resp true (some [])) = .ok [] := rfl

/-- C6 amended: `getHourly24` does not mirror the daily exhaustion contract:
when the first two tiers yield nothing and the third fetch succeeds, the
(possibly empty) converted sample list is returned as a success and no
"no forecast data" error exists on this path; only a third-tier fetch
failure, or a non-ok third response, raises an error. -/
theorem getHourly24_no_exhaustion_error (t1 t2 : FetchResult (Option (List HourlySrc)))
    (body : Option (List Sample))
    (h1 : tierHourly t1 = none) (h2 : tierHourly t2 = none) :
    getHourly24 t1 t2 (.resp true body) =
      .ok (((body.getD []).take 9).map sampleToHourly) ∧
    getHourly24 t1 t2 .netFail = .error .network := by
  have htake : (((body.getD []).take 9).map sampleToHourly).take 24 =
      ((body.getD []).take 9).map sampleToHourly := by
    apply List.take_of_length_le
    calc (((body.getD []).take 9).map sampleToHourly).length
        = ((body.getD []).take 9).length := List.length_map _ _
      _ ≤ 9 := List.length_take_le 9 _
      _ ≤ 24 := by omega
  constructor
  · unfold getHourly24
    rw [h1, h2]
    simp [htake]
  · unfold getHourly24
    rw [h1, h2]

/-- Witness for C6 amended: concrete empty-yield first tiers and an ok third
fetch with one sample. -/
theorem getHourly24_no_exhaustion_error_witness :
    getHourly24 .netFail (.resp false none)
        (.resp true (some [{ dt := 0, main := some 20, icon := some "10d"
                           , description := some "light rain" }])) =
      .ok ((((some [{ dt := 0, main := some 20, icon := some "10d"
                    , description := some "light rain" }] :
              Option (List Sample)).getD []).take 9).map sampleToHourly) ∧
    getHourly24 .netFail (.resp false none) .netFail = .error .network :=
  getHourly24_no_exhaustion_error .netFail (.resp false none)
    (some [{ dt := 0, main := some 20, icon := some "10d"
           , description := some "light rain" }]) rfl rfl

/-! ### C7: the hourly cap and the raw passthrough -/

/-- C7: `getHourly24` returns at most 24 entries for every tier outcome, and
the third-tier fallback passes at most the first nine raw three-hour samples
through one by one, with no bucket aggregation. -/
theorem getHourly24_at_most_24 (t1 t2 : FetchResult (Option (List HourlySrc)))
    (t3 : FetchResult (Option (List Sample))) :
    (∀ l, getHourly24 t1 t2 t3 = .ok l → l.length ≤ 24) ∧
    (tierHourly t1 = none → tierHourly t2 = none → ∀ body, t3 = .resp true body →
      getHourly24 t1 t2 t3 = .ok (((body.getD []).take 9).map sampleToHourly) ∧
      (((body.getD []).take 9).map sampleToHourly).length ≤ 9) := by
  have tierLen : ∀ t res, tierHourly t = some res → res.length ≤ 24 := by
    intro t res h
    cases t with
    | netFail => simp [tierHourly] at h
    | resp ok body =>
      simp only [tierHourly] at h
      split at h
      · split at h
        · exact absurd h (by simp)
        · cases h
          rw [List.length_map]
          exact List.length_take_le 24 _
      · exact absurd h (by simp)
  constructor
  · intro l h
    unfold getHourly24 at h
    cases e1 : tierHourly t1 with
    | some res => rw [e1] at h; cases h; exact tierLen t1 l e1
    | none =>
      rw [e1] at h
      cases e2 : tierHourly t2 with
      | some res => rw [e2] at h; cases h; exact tierLen t2 l e2
      | none =>
        rw [e2] at h
        cases t3 with
        | netFail => exact absurd h (by simp)
        | resp ok body =>
          simp only at h
          split at h
          · cases h
            exact List.length_take_le 24 _
          · exact absurd h (by simp)
  · intro h1 h2 body ht3
    subst ht3
    refine ⟨(getHourly24_no_exhaustion_error t1 t2 body h1 h2).1, ?_⟩
    rw [List.length_map]
    exact List.length_take_le 9 _

/-- Witness for C7: ten concrete samples reach the third tier; only the
first nine survive. -/
theorem getHourly24_at_most_24_witness :
    getHourly24 .netFail .netFail
        (.resp true (some (List.replicate 10
          ({ dt := 0, main := some 20, icon := some "10d"
           , description := some "light rain" } : Sample)))) =
      .ok ((((some (List.replicate 10
          ({ dt := 0, main := some 20, icon := some "10d"
           , description := some "light rain" } : Sample)) :
            Option (List Sample)).getD []).take 9).map sampleToHourly) ∧
    ((((some (List.replicate 10
          ({ dt := 0, main := some 20, icon := some "10d"
           , description := some "light rain" } : Sample)) :
            Option (List Sample)).getD []).take 9).map sampleToHourly).length ≤ 9 :=
  (getHourly24_at_most_24 .netFail .netFail
      (.resp true (some (List.replicate 10
        ({ dt := 0, main := some 20, icon := some "10d"
         , description := some "light rain" } : Sample))))).2 rfl rfl _ rfl

/-! ### Derived views of the sample list, used to state C1 and C10 -/

/-- The samples of one calendar day, in source order. -/
def samplesOfDay (k : Nat) (list : List Sample) : List Sample :=
  list.filter fun s => dayKey s = k

/-- The temperatures contributed by one day's samples. -/
def tempsOfDay (k : Nat) (list : List Sample) : List ℚ :=
  (samplesOfDay k list).filterMap fun s => s.main

/-- The truthy icons of one day's samples. -/
def iconsOfDay (k : Nat) (list : List Sample) : List String :=
  (samplesOfDay k list).filterMap fun s => truthyStr s.icon

/-- The truthy descriptions of one day's samples. -/
def descsOfDay (k : Nat) (list : List Sample) : List String :=
  (samplesOfDay k list).filterMap fun s => truthyStr s.description

/-- A most-frequently-occurring element of a list. -/
def IsMode (x : String) (l : List String) : Prop :=
  x ∈ l ∧ ∀ y, l.count y ≤ l.count x

/-- Repeated folding of samples into one bucket record. -/
def foldBucket (r : DayRec) (l : List Sample) : DayRec :=
  l.foldl (fun r it => updRec it r) r

/-! ### Association-list lemmas for the `byDay` map -/

theorem getAssoc_setAssoc_self (m : List (Nat × DayRec)) (k : Nat) (v : DayRec) :
    getAssoc (setAssoc m k v) k = some v := by
  induction m with
  | nil => simp [setAssoc, getAssoc]
  | cons p rest ih =>
    obtain ⟨k', v'⟩ := p
    by_cases h : k' = k
    · subst h
      simp [setAssoc, getAssoc]
    · simp [setAssoc, getAssoc, h, ih]

theorem getAssoc_setAssoc_ne (m : List (Nat × DayRec)) (k k' : Nat) (v : DayRec)
    (hne : k' ≠ k) : getAssoc (setAssoc m k v) k' = getAssoc m k' := by
  induction m with
  | nil => simp [setAssoc, getAssoc, Ne.symm hne]
  | cons p rest ih =>
    obtain ⟨k0, v0⟩ := p
    by_cases h : k0 = k
    · subst h
      simp [setAssoc, getAssoc, hne, Ne.symm hne]
    · simp only [setAssoc, if_neg h, getAssoc]
      by_cases h2 : k0 = k'
      · simp [h2]
      · simp [h2, ih]

theorem setAssoc_keys_mem (m : List (Nat × DayRec)) (k : Nat) (v : DayRec)
    (h : k ∈ m.map Prod.fst) : (setAssoc m k v).map Prod.fst = m.map Prod.fst := by
  induction m with
  | nil => simp at h
  | cons p rest ih =>
    obtain ⟨k0, v0⟩ := p
    by_cases h0 : k0 = k
    · subst h0
      simp [setAssoc]
    · simp only [List.map_cons, List.mem_cons] at h
      rcases h with h | h
    
      · exact absurd h.symm h0
      · simp [setAssoc, h0, ih h]

theorem setAssoc_keys_not_mem (m : List (Nat × DayRec)) (k : Nat) (v : DayRec)
    (h : k ∉ m.map Prod.fst) :
    (setAssoc m k v).map Prod.fst = m.map Prod.fst ++ [k] := by
  induction m with
  | nil => simp [setAssoc]
  | cons p rest ih =>
    obtain ⟨k0, v0⟩ := p
    simp only [List.map_cons, List.mem_cons] at h
    push_neg at h
    simp [setAssoc, Ne.symm h.1, ih h.2]

theorem getAssoc_eq_none_iff (m : List (Nat × DayRec)) (k : Nat) :
    getAssoc m k = none ↔ k ∉ m.map Prod.fst := by
  induction m with
  | nil => simp [getAssoc]
  | cons p rest ih =>
    obtain ⟨k0, v0⟩ := p
    by_cases h : k0 = k
    · subst h
      simp [getAssoc]
    · simp [getAssoc, h, ih, Ne.symm h]

theorem getAssoc_eq_of_mem (m : List (Nat × DayRec)) (k : Nat) (r : DayRec)
    (hnd : (m.map Prod.fst).Nodup) (h : (k, r) ∈ m) : getAssoc m k = some r := by
  induction m with
  | nil => simp at h
  | cons p rest ih =>
    obtain ⟨k0, v0⟩ := p
    simp only [List.map_cons, List.nodup_cons] at hnd
    rcases List.mem_cons.mp h with h | h
    · cases h
      simp [getAssoc]
    · have hk : k0 ≠ k := by
        intro hc
        subst hc
        exact hnd.1 (List.mem_map.mpr ⟨(k0, r), h, rfl⟩)
      simp [getAssoc, hk, ih hnd.2 h]

/-! ### Content of one bucket record -/

theorem updRec_dt (it : Sample) (r : DayRec) : (updRec it r).dt = r.dt := by
  unfold updRec
  cases it.main <;> cases truthyStr it.icon <;> cases truthyStr it.description <;> rfl

theorem updRec_temps (it : Sample) (r : DayRec) :
    (updRec it r).temps = r.temps ++ it.main.toList := by
  unfold updRec
  cases it.main <;> cases truthyStr it.icon <;> cases truthyStr it.description <;> simp

theorem updRec_icons (it : Sample) (r : DayRec) :
    (updRec it r).icons =
      match truthyStr it.icon with
      | some ic => bumpCount r.icons ic
      | none => r.icons := by
  unfold updRec
  cases it.main <;> cases truthyStr it.icon <;> cases truthyStr it.description <;> rfl

theorem updRec_descs (it : Sample) (r : DayRec) :
    (updRec it r).descs =
      match truthyStr it.description with
      | some dc => bumpCount r.descs dc
      | none => r.descs := by
  unfold updRec
  cases it.main <;> cases truthyStr it.icon <;> cases truthyStr it.description <;> rfl

theorem foldBucket_nil (r : DayRec) : foldBucket r [] = r := rfl

theorem foldBucket_cons (x : Sample) (xs : List Sample) (r : DayRec) :
    foldBucket r (x :: xs) = foldBucket (updRec x r) xs := rfl

theorem foldBucket_dt (l : List Sample) (r : DayRec) : (foldBucket r l).dt = r.dt := by
  induction l generalizing r with
  | nil => rfl
  | cons x xs ih => rw [foldBucket_cons, ih, updRec_dt]

theorem foldBucket_temps (l : List Sample) (r : DayRec) :
    (foldBucket r l).temps = r.temps ++ l.filterMap (fun s => s.main) := by
  induction l generalizing r with
  | nil => simp [foldBucket_nil]
  | cons x xs ih =>
    rw [foldBucket_cons, ih, updRec_temps]
    cases hx : x.main <;> simp [List.filterMap_cons, hx, Option.toList]

theorem foldBucket_icons (l : List Sample) (r : DayRec) :
    (foldBucket r l).icons =
      (l.filterMap fun s => truthyStr s.icon).foldl bumpCount r.icons := by
  induction l generalizing r with
  | nil => simp [foldBucket_nil]
  | cons x xs ih =>
    rw [foldBucket_cons, ih, updRec_icons]
    cases hx : truthyStr x.icon <;> simp [List.filterMap_cons, hx]

theorem foldBucket_descs (l : List Sample) (r : DayRec) :
    (foldBucket r l).descs =
      (l.filterMap fun s => truthyStr s.description).foldl bumpCount r.descs := by
  induction l generalizing r with
  | nil => simp [foldBucket_nil]
  | cons x xs ih =>
    rw [foldBucket_cons, ih, updRec_descs]
    cases hx : truthyStr x.description <;> simp [List.filterMap_cons, hx]

/-! ### Characterization of the grouping fold -/

theorem insertSample_eq (m : List (Nat × DayRec)) (x : Sample) :
    insertSample m x =
      setAssoc m (dayKey x) (updRec x ((getAssoc m (dayKey x)).getD (emptyRec x.dt))) := rfl

theorem samplesOfDay_cons_pos (k : Nat) (x : Sample) (xs : List Sample)
    (h : dayKey x = k) : samplesOfDay k (x :: xs) = x :: samplesOfDay k xs := by
  simp [samplesOfDay, List.filter_cons, h]

theorem samplesOfDay_cons_neg (k : Nat) (x : Sample) (xs : List Sample)
    (h : dayKey x ≠ k) : samplesOfDay k (x :: xs) = samplesOfDay k xs := by
  simp [samplesOfDay, List.filter_cons, h]

theorem foldl_insertSample_lookup_some (list : List Sample) (m : List (Nat × DayRec))
    (k : Nat) (r : DayRec) (h : getAssoc m k = some r) :
    getAssoc (list.foldl insertSample m) k = some (foldBucket r (samplesOfDay k list)) := by
  induction list generalizing m r with
  | nil => simpa [samplesOfDay, foldBucket_nil] using h
  | cons x xs ih =>
    simp only [List.foldl_cons]
    by_cases hk : dayKey x = k
    · have hm : getAssoc (insertSample m x) k = some (updRec x r) := by
        rw [insertSample_eq, hk, h]
        exact getAssoc_setAssoc_self m k _
      rw [ih _ _ hm, samplesOfDay_cons_pos _ _ _ hk, foldBucket_cons]
    · have hm : getAssoc (insertSample m x) k = some r := by
        rw [insertSample_eq]
        rw [getAssoc_setAssoc_ne _ _ _ _ (Ne.symm hk)]
        exact h
      rw [ih _ _ hm, samplesOfDay_cons_neg _ _ _ hk]

theorem foldl_insertSample_lookup_none (list : List Sample) (m : List (Nat × DayRec))
    (k : Nat) (h : getAssoc m k = none) (hs : samplesOfDay k list = []) :
    getAssoc (list.foldl insertSample m) k = none := by
  induction list generalizing m with
  | nil => simpa using h
  | cons x xs ih =>
    by_cases hk : dayKey x = k
    · rw [samplesOfDay_cons_pos _ _ _ hk] at hs
      cases hs
    · rw [samplesOfDay_cons_neg _ _ _ hk] at hs
      simp only [List.foldl_cons]
      apply ih _ _ hs
      rw [insertSample_eq, getAssoc_setAssoc_ne _ _ _ _ (Ne.symm hk)]
      exact h

theorem foldl_insertSample_lookup_new (list : List Sample) (m : List (Nat × DayRec))
    (k : Nat) (s : Sample) (rest : List Sample)
    (h : getAssoc m k = none) (hs : samplesOfDay k list = s :: rest) :
    getAssoc (list.foldl insertSample m) k =
      some (foldBucket (emptyRec s.dt) (s :: rest)) := by
  induction list generalizing m with
  | nil => simp [samplesOfDay] at hs
  | cons x xs ih =>
    simp only [List.foldl_cons]
    by_cases hk : dayKey x = k
    · rw [samplesOfDay_cons_pos _ _ _ hk] at hs
      injection hs with h1 h2
      subst h1
      subst h2
      have hm : getAssoc (insertSample m x) k = some (updRec x (emptyRec x.dt)) := by
        rw [insertSample_eq, hk, h]
        exact getAssoc_setAssoc_self m k _
      rw [foldl_insertSample_lookup_some xs _ _ _ hm, foldBucket_cons]
    · rw [samplesOfDay_cons_neg _ _ _ hk] at hs
      apply ih _ _ hs
      rw [insertSample_eq, getAssoc_setAssoc_ne _ _ _ _ (Ne.symm hk)]
      exact h

/-! ### The key set of the bucket map -/

/-- Insertion-order key accumulation of the grouping loop. -/
def keysAcc (acc : List Nat) : List Nat → List Nat
  | [] => acc
  | k :: rest => keysAcc (if k ∈ acc then acc else acc ++ [k]) rest

theorem keysAcc_cons (acc : List Nat) (k : Nat) (ks : List Nat) :
    keysAcc acc (k :: ks) = keysAcc (if k ∈ acc then acc else acc ++ [k]) ks := rfl

theorem buildBuckets_keys_aux (list : List Sample) (m : List (Nat × DayRec)) :
    (list.foldl insertSample m).map Prod.fst =
      keysAcc (m.map Prod.fst) (list.map dayKey) := by
  induction list generalizing m with
  | nil => rfl
  | cons x xs ih =>
    simp only [List.foldl_cons, List.map_cons]
    rw [keysAcc_cons, ih]
    congr 1
    by_cases hk : dayKey x ∈ m.map Prod.fst
    · rw [if_pos hk, insertSample_eq, setAssoc_keys_mem _ _ _ hk]
    · rw [if_neg hk, insertSample_eq, setAssoc_keys_not_mem _ _ _ hk]

theorem mem_keysAcc (ks : List Nat) (acc : List Nat) (k : Nat) :
    k ∈ keysAcc acc ks ↔ k ∈ acc ∨ k ∈ ks := by
  induction ks generalizing acc with
  | nil => simp [keysAcc]
  | cons a rest ih =>
    rw [keysAcc_cons]
    by_cases h : a ∈ acc
    · rw [if_pos h, ih]
      constructor
      · rintro (h' | h')
        · exact Or.inl h'
        · exact Or.inr (List.mem_cons_of_mem a h')
      · rintro (h' | h')
        · exact Or.inl h'
        · rcases List.mem_cons.mp h' with h'' | h''
          · subst h''; exact Or.inl h
          · exact Or.inr h''
    · rw [if_neg h, ih]
      simp only [List.mem_append, List.mem_singleton, List.mem_cons]
      tauto

theorem keysAcc_nodup (ks : List Nat) (acc : List Nat) (h : acc.Nodup) :
    (keysAcc acc ks).Nodup := by
  induction ks generalizing acc with
  | nil => exact h
  | cons a rest ih =>
    rw [keysAcc_cons]
    by_cases ha : a ∈ acc
    · rw [if_pos ha]
      exact ih _ h
    · rw [if_neg ha]
      apply ih
      simp [List.nodup_append, h, ha]

theorem buildBuckets_keys_nodup (list : List Sample) :
    ((buildBuckets list).map Prod.fst).Nodup := by
  rw [buildBuckets, buildBuckets_keys_aux]
  exact keysAcc_nodup _ _ (by simp)

theorem mem_buildBuckets_keys (list : List Sample) (k : Nat) :
    k ∈ (buildBuckets list).map Prod.fst ↔ k ∈ list.map dayKey := by
  rw [buildBuckets, buildBuckets_keys_aux]
  simp [mem_keysAcc]

theorem buildBuckets_length (list : List Sample) :
    (buildBuckets list).length = (list.map dayKey).dedup.length := by
  have h1 : (buildBuckets list).length = ((buildBuckets list).map Prod.fst).length :=
    (List.length_map _ _).symm
  rw [h1]
  have hnd := buildBuckets_keys_nodup list
  have hnd2 : (list.map dayKey).dedup.Nodup := List.nodup_dedup _
  rw [← List.toFinset_card_of_nodup hnd, ← List.toFinset_card_of_nodup hnd2]
  congr 1
  ext a
  rw [List.mem_toFinset, List.mem_toFinset, List.mem_dedup]
  exact mem_buildBuckets_keys list a

theorem buildBuckets_mem (list : List Sample) (k : Nat) (r : DayRec)
    (h : (k, r) ∈ buildBuckets list) :
    ∃ s rest, samplesOfDay k list = s :: rest ∧
      r = foldBucket (emptyRec s.dt) (s :: rest) := by
  have hget : getAssoc (buildBuckets list) k = some r :=
    getAssoc_eq_of_mem _ _ _ (buildBuckets_keys_nodup list) h
  cases hs : samplesOfDay k list with
  | nil =>
    rw [buildBuckets, foldl_insertSample_lookup_none list [] k rfl hs] at hget
    cases hget
  | cons s rest =>
    rw [buildBuckets, foldl_insertSample_lookup_new list [] k s rest rfl hs] at hget
    injection hget with h'
    exact ⟨s, rest, rfl, h'.symm⟩

theorem bucket_props (list : List Sample) (k : Nat) (r : DayRec)
    (h : (k, r) ∈ buildBuckets list) :
    r.dt / 86400 = k ∧
    (∃ s rest, samplesOfDay k list = s :: rest) ∧
    r.temps = tempsOfDay k list ∧
    r.icons = (iconsOfDay k list).foldl bumpCount [] ∧
    r.descs = (descsOfDay k list).foldl bumpCount [] := by
  obtain ⟨s, rest, hs, hr⟩ := buildBuckets_mem list k r h
  have hsmem : s ∈ samplesOfDay k list := by
    rw [hs]
    exact List.mem_cons_self _ _
  have hsd : dayKey s = k := by
    have := (List.mem_filter.mp hsmem).2
    simpa using this
  subst hr
  refine ⟨?_, ?_, ?_, ?_, ?_⟩
  · rw [foldBucket_dt]
    exact hsd
  · exact ⟨s, rest, hs⟩
  · rw [foldBucket_temps, tempsOfDay, hs]
    simp [emptyRec]
  · rw [foldBucket_icons, iconsOfDay, hs]
    simp [emptyRec]
  · rw [foldBucket_descs, descsOfDay, hs]
    simp [emptyRec]

/-! ### Counter objects and the dominant entry -/

/-- First-match count lookup in a counter object. -/
def countOf : List (String × Nat) → String → Nat
  | [], _ => 0
  | (k', n) :: rest, k => if k' = k then n else countOf rest k

theorem countOf_bump_self (m : List (String × Nat)) (k : String) :
    countOf (bumpCount m k) k = countOf m k + 1 := by
  induction m with
  | nil => simp [bumpCount, countOf]
  | cons p rest ih =>
    obtain ⟨k0, n0⟩ := p
    by_cases h : k0 = k
    · subst h
      simp [bumpCount, countOf]
    · simp [bumpCount, countOf, h, ih]

theorem countOf_bump_ne (m : List (String × Nat)) (k k' : String) (h : k' ≠ k) :
    countOf (bumpCount m k) k' = countOf m k' := by
  induction m with
  | nil => simp [bumpCount, countOf, Ne.symm h]
  | cons p rest ih =>
    obtain ⟨k0, n0⟩ := p
    by_cases h0 : k0 = k
    · subst h0
      simp [bumpCount, countOf, Ne.symm h]
    · by_cases h1 : k0 = k'
      · subst h1
        simp [bumpCount, countOf, h0]
      · simp [bumpCount, countOf, h0, h1, ih]

theorem bumpCount_ne_nil (m : List (String × Nat)) (k : String) : bumpCount m k ≠ [] := by
  cases m with
  | nil => simp [bumpCount]
  | cons p rest =>
    obtain ⟨k0, n0⟩ := p
    by_cases h : k0 = k <;> simp [bumpCount, h]

theorem foldl_bump_ne_nil (ks : List String) (m : List (String × Nat)) (h : m ≠ []) :
    ks.foldl bumpCount m ≠ [] := by
  induction ks generalizing m with
  | nil => exact h
  | cons a rest ih =>
    simp only [List.foldl_cons]
    exact ih _ (bumpCount_ne_nil m a)

theorem bumpCount_keys_mem (m : List (String × Nat)) (k : String)
    (h : k ∈ m.map Prod.fst) : (bumpCount m k).map Prod.fst = m.map Prod.fst := by
  induction m with
  | nil => simp at h
  | cons p rest ih =>
    obtain ⟨k0, n0⟩ := p
    by_cases h0 : k0 = k
    · subst h0
      simp [bumpCount]
    · simp only [List.map_cons, List.mem_cons] at h
      rcases h with h | h
      · exact absurd h.symm h0
      · simp [bumpCount, h0, ih h]

theorem bumpCount_keys_not_mem (m : List (String × Nat)) (k : String)
    (h : k ∉ m.map Prod.fst) :
    (bumpCount m k).map Prod.fst = m.map Prod.fst ++ [k] := by
  induction m with
  | nil => simp [bumpCount]
  | cons p rest ih =>
    obtain ⟨k0, n0⟩ := p
    simp only [List.map_cons, List.mem_cons] at h
    push_neg at h
    simp [bumpCount, Ne.symm h.1, ih h.2]

theorem bumpCount_keys_nodup (m : List (String × Nat)) (k : String)
    (h : (m.map Prod.fst).Nodup) : ((bumpCount m k).map Prod.fst).Nodup := by
  by_cases hk : k ∈ m.map Prod.fst
  · rw [bumpCount_keys_mem _ _ hk]
    exact h
  · rw [bumpCount_keys_not_mem _ _ hk]
    simp [List.nodup_append, h, hk]

theorem countFold_nodup (ks : List String) (m : List (String × Nat))
    (h : (m.map Prod.fst).Nodup) : ((ks.foldl bumpCount m).map Prod.fst).Nodup := by
  induction ks generalizing m with
  | nil => exact h
  | cons a rest ih =>
    simp only [List.foldl_cons]
    exact ih _ (bumpCount_keys_nodup m a h)

theorem countOf_countFold (ks : List String) (m : List (String × Nat)) (k : String) :
    countOf (ks.foldl bumpCount m) k = countOf m k + ks.count k := by
  induction ks generalizing m with
  | nil => simp
  | cons a rest ih =>
    simp only [List.foldl_cons]
    rw [ih]
    by_cases h : a = k
    · subst h
      rw [countOf_bump_self]
      simp only [List.count_cons, beq_self_eq_true, if_true]
      omega
    · rw [countOf_bump_ne _ _ _ (fun hc => h hc.symm)]
      simp [List.count_cons, h]

theorem mem_countOf (m : List (String × Nat)) (k : String) (n : Nat)
    (hnd : (m.map Prod.fst).Nodup) (h : (k, n) ∈ m) : countOf m k = n := by
  induction m with
  | nil => simp at h
  | cons p rest ih =>
    obtain ⟨k0, n0⟩ := p
    simp only [List.map_cons, List.nodup_cons] at hnd
    rcases List.mem_cons.mp h with h' | h'
    · injection h' with e1 e2
      subst e1
      subst e2
      simp [countOf]
    · have hk : k0 ≠ k := by
        intro hc
        subst hc
        exact hnd.1 (List.mem_map.mpr ⟨(k0, n), h', rfl⟩)
      simp [countOf, hk, ih hnd.2 h']

theorem countOf_not_mem (m : List (String × Nat)) (k : String)
    (h : k ∉ m.map Prod.fst) : countOf m k = 0 := by
  induction m with
  | nil => rfl
  | cons p rest ih =>
    obtain ⟨k0, n0⟩ := p
    simp only [List.map_cons, List.mem_cons] at h
    push_neg at h
    simp [countOf, Ne.symm h.1, ih h.2]

theorem key_mem_pair (m : List (String × Nat)) (k : String)
    (h : k ∈ m.map Prod.fst) : (k, countOf m k) ∈ m := by
  induction m with
  | nil => simp at h
  | cons p rest ih =>
    obtain ⟨k0, n0⟩ := p
    by_cases h0 : k0 = k
    · subst h0
      simp [countOf]
    · simp only [List.map_cons, List.mem_cons] at h
      rcases h with h | h
      · exact absurd h.symm h0
      · simp only [countOf, if_neg h0]
        exact List.mem_cons_of_mem _ (ih h)

theorem countFold_keys_sub (ks : List String) (m : List (String × Nat)) (k : String)
    (h : k ∈ (ks.foldl bumpCount m).map Prod.fst) :
    k ∈ m.map Prod.fst ∨ k ∈ ks := by
  induction ks generalizing m with
  | nil => exact Or.inl h
  | cons a rest ih =>
    simp only [List.foldl_cons] at h
    rcases ih _ h with h' | h'
    · by_cases ha : a ∈ m.map Prod.fst
      · rw [bumpCount_keys_mem _ _ ha] at h'
        exact Or.inl h'
      · rw [bumpCount_keys_not_mem _ _ ha] at h'
        rcases List.mem_append.mp h' with h'' | h''
        · exact Or.inl h''
        · simp only [List.mem_singleton] at h''
          subst h''
          exact Or.inr (List.mem_cons_self _ _)
    · exact Or.inr (List.mem_cons_of_mem _ h')

theorem topEntry_eq_none (m : List (String × Nat)) : topEntry m = none ↔ m = [] := by
  cases m with
  | nil => simp [topEntry]
  | cons p rest =>
    obtain ⟨k, n⟩ := p
    simp only [topEntry]
    cases ht : topEntry rest with
    | none => simp
    | some q =>
      obtain ⟨k', n'⟩ := q
      by_cases h : n < n' <;> simp [h]

theorem topEntry_mem (m : List (String × Nat)) (p : String × Nat)
    (h : topEntry m = some p) : p ∈ m := by
  induction m generalizing p with
  | nil => simp [topEntry] at h
  | cons q rest ih =>
    obtain ⟨k, n⟩ := q
    cases ht : topEntry rest with
    | none =>
      simp only [topEntry, ht] at h
      injection h with h'
      subst h'
      exact List.mem_cons_self _ _
    | some q' =>
      obtain ⟨k', n'⟩ := q'
      simp only [topEntry, ht] at h
      by_cases hlt : n < n'
      · rw [if_pos hlt] at h
        injection h with h'
        subst h'
        exact List.mem_cons_of_mem _ (ih _ ht)
      · rw [if_neg hlt] at h
        injection h with h'
        subst h'
        exact List.mem_cons_self _ _

theorem topEntry_le (m : List (String × Nat)) (p : String × Nat)
    (h : topEntry m = some p) : ∀ q ∈ m, q.2 ≤ p.2 := by
  induction m generalizing p with
  | nil => intro q hq; simp at hq
  | cons q0 rest ih =>
    obtain ⟨k, n⟩ := q0
    intro q hq
    cases ht : topEntry rest with
    | none =>
      simp only [topEntry, ht] at h
      injection h with h'
      subst h'
      have hrest : rest = [] := (topEntry_eq_none rest).mp ht
      subst hrest
      rcases List.mem_cons.mp hq with h' | h'
      · subst h'
        exact le_refl _
      · simp at h'
    | some q' =>
      obtain ⟨k', n'⟩ := q'
      simp only [topEntry, ht] at h
      by_cases hlt : n < n'
      · rw [if_pos hlt] at h
        injection h with h'
        subst h'
        rcases List.mem_cons.mp hq with h' | h'
        · subst h'
          exact le_of_lt hlt
        · exact ih _ ht q h'
      · rw [if_neg hlt] at h
        injection h with h'
        subst h'
        rcases List.mem_cons.mp hq with h' | h'
        · subst h'
          exact le_refl _
        · exact le_trans (ih _ ht q h') (not_lt.mp hlt)

theorem countFold_mode (ks : List String) (hne : ks ≠ []) :
    ∃ k n, topEntry (ks.foldl bumpCount []) = some (k, n) ∧
      IsMode k ks ∧ n = ks.count k := by
  have hm : ks.foldl bumpCount [] ≠ [] := by
    cases ks with
    | nil => exact absurd rfl hne
    | cons a rest =>
      simp only [List.foldl_cons]
      exact foldl_bump_ne_nil rest _ (bumpCount_ne_nil [] a)
  obtain ⟨⟨k, n⟩, ht⟩ : ∃ p, topEntry (ks.foldl bumpCount []) = some p := by
    cases hh : topEntry (ks.foldl bumpCount []) with
    | none => exact absurd ((topEntry_eq_none _).mp hh) hm
    | some p => exact ⟨p, rfl⟩
  have hnd : ((ks.foldl bumpCount []).map Prod.fst).Nodup := countFold_nodup ks [] (by simp)
  have hmem := topEntry_mem _ _ ht
  have hcount : countOf (ks.foldl bumpCount []) k = n := mem_countOf _ _ _ hnd hmem
  have hck : ks.count k = n := by
    have h' := countOf_countFold ks [] k
    rw [hcount] at h'
    simpa [countOf] using h'.symm
  have hkmem : k ∈ ks := by
    rcases countFold_keys_sub ks [] k (List.mem_map.mpr ⟨(k, n), hmem, rfl⟩) with h' | h'
    · simp at h'
    · exact h'
  refine ⟨k, n, ht, ⟨hkmem, ?_⟩, hck.symm⟩
  intro y
  by_cases hy : y ∈ (ks.foldl bumpCount []).map Prod.fst
  · have hpair := key_mem_pair _ _ hy
    have hle := topEntry_le _ _ ht (y, countOf (ks.foldl bumpCount []) y) hpair
    have hcy : countOf (ks.foldl bumpCount []) y = ks.count y := by
      have h' := countOf_countFold ks [] y
      simpa [countOf] using h'
    rw [hcy] at hle
    simpa [hck] using hle
  · have hcy := countOf_not_mem _ _ hy
    have h' := countOf_countFold ks [] y
    rw [hcy] at h'
    simp only [countOf] at h'
    rw [hck]
    omega

/-! ### Rounded minimum and maximum of a bucket -/

theorem jsMinMax_fin (l : List ℚ) (hne : l ≠ []) :
    ∃ a b, jsMinList l = .fin a ∧ jsMaxList l = .fin b ∧ a ≤ b := by
  induction l with
  | nil => exact absurd rfl hne
  | cons t rest ih =>
    cases rest with
    | nil => exact ⟨t, t, rfl, rfl, le_refl t⟩
    | cons u rest2 =>
      obtain ⟨a, b, hmin, hmax, hab⟩ := ih (by simp)
      refine ⟨min t a, max t b, ?_, ?_, ?_⟩
      · rw [jsMinList, hmin]
      · rw [jsMaxList, hmax]
      · calc min t a ≤ a := min_le_right t a
          _ ≤ b := hab
          _ ≤ max t b := le_max_right t b

theorem synthEntry_tempMin (r : DayRec) :
    (synthEntry r).tempMin = jsRound (jsMinList r.temps) := rfl

theorem synthEntry_tempMax (r : DayRec) :
    (synthEntry r).tempMax = jsRound (jsMaxList r.temps) := rfl

theorem synthEntry_dt (r : DayRec) : (synthEntry r).dt = r.dt := rfl

theorem synthEntry_weather (r : DayRec) :
    (synthEntry r).weather =
      [{ icon :=
           match topEntry r.icons with
           | some (k, _) => if k = "" then "01d" else k
           | none => "01d"
       , description :=
           match topEntry r.descs with
           | some (k, _) => k
           | none => "" }] := rfl

/-- A synthesized entry satisfies min ≤ max exactly when its bucket holds at
least one temperature; an empty bucket yields min = +Infinity and
max = −Infinity from the empty spreads. -/
theorem synthEntry_minmax (r : DayRec) :
    xle (synthEntry r).tempMin (synthEntry r).tempMax = true ↔ r.temps ≠ [] := by
  rw [synthEntry_tempMin, synthEntry_tempMax]
  constructor
  · intro h hnil
    rw [hnil] at h
    simp [jsMinList, jsMaxList, jsRound, xle] at h
  · intro hne
    obtain ⟨a, b, hmin, hmax, hab⟩ := jsMinMax_fin r.temps hne
    rw [hmin, hmax]
    simp only [jsRound, xle, decide_eq_true_eq]
    have hr : jsRoundQ a ≤ jsRoundQ b := Int.floor_le_floor (by linarith)
    exact_mod_cast hr

/-- The dominant icon and description of a bucket whose counters were built
from non-empty truthy key lists are modes of those lists. -/
theorem synthEntry_weather_mode (r : DayRec) (ks ds : List String)
    (hki : r.icons = ks.foldl bumpCount []) (hkd : r.descs = ds.foldl bumpCount [])
    (hkne : ks ≠ []) (hdne : ds ≠ []) (hknb : ∀ x ∈ ks, x ≠ "") :
    ∃ ic dc, (synthEntry r).weather = [{ icon := ic, description := dc }] ∧
      IsMode ic ks ∧ IsMode dc ds := by
  obtain ⟨ki, ni, hti, hmi, _⟩ := countFold_mode ks hkne
  obtain ⟨kd, nd, htd, hmd, _⟩ := countFold_mode ds hdne
  refine ⟨ki, kd, ?_, hmi, hmd⟩
  have hne : ki ≠ "" := hknb ki hmi.1
  rw [synthEntry_weather, hki, hkd, hti, htd]
  simp only [if_neg hne]

/-! ### The third tier inside the full call -/

theorem truthyStr_ne_empty (o : Option String) (x : String) (h : truthyStr o = some x) :
    x ≠ "" := by
  cases o with
  | none => simp [truthyStr] at h
  | some s =>
    simp only [truthyStr] at h
    by_cases hs : s = ""
    · rw [if_pos hs] at h
      cases h
    · rw [if_neg hs] at h
      injection h with h'
      subst h'
      exact hs

theorem getForecast10Days_thirdTier (count : ℤ)
    (t1 t2 : FetchResult (Option (List DailyEntry))) (body : Option (List Sample))
    (h1 : tierDaily t1 count = none) (h2 : tierDaily t2 count = none) :
    getForecast10Days count t1 t2 (.resp true body) =
      if (tier3Days body count).isEmpty then .error (.msg "No forecast data available")
      else .ok (tier3Days body count) := by
  unfold getForecast10Days
  rw [h1, h2]
  rfl

theorem tier3Days_entry (body : Option (List Sample)) (count : ℤ) (e : DailyEntry)
    (he : e ∈ tier3Days body count) :
    ∃ k r, (k, r) ∈ buildBuckets (body.getD []) ∧ synthEntry r = e ∧ e.dt / 86400 = k := by
  unfold tier3Days at he
  obtain ⟨p, hp, hpe⟩ := List.mem_map.mp he
  have hp2 : p ∈ List.insertionSort keyLE (buildBuckets (body.getD [])) :=
    List.take_subset _ _ hp
  have hp3 : p ∈ buildBuckets (body.getD []) :=
    (List.perm_insertionSort keyLE _).subset hp2
  obtain ⟨k, r⟩ := p
  have hpe' : synthEntry r = e := hpe
  refine ⟨k, r, hp3, hpe', ?_⟩
  rw [← hpe', synthEntry_dt]
  exact (bucket_props _ _ _ hp3).1

/-! ### C10: missing `main` and the min ≤ max precondition -/

/-- C10: in the third-tier synthesis, a sample lacking `main` contributes no
temperature to its day bucket while its truthy icon and description are still
counted toward the mode; and a synthesized entry of the returned list
satisfies temp.min ≤ temp.max exactly when its calendar day has at least one
temperature-bearing sample. -/
theorem noMain_minmax_iff (count : ℤ)
    (t1 t2 : FetchResult (Option (List DailyEntry)))
    (samples : List Sample) (es : List DailyEntry)
    (h1 : tierDaily t1 count = none) (h2 : tierDaily t2 count = none)
    (hres : getForecast10Days count t1 t2 (.resp true (some samples)) = .ok es) :
    (∀ (it : Sample) (r : DayRec), it.main = none →
      (updRec it r).temps = r.temps ∧
      (∀ ic, truthyStr it.icon = some ic → (updRec it r).icons = bumpCount r.icons ic) ∧
      (∀ dc, truthyStr it.description = some dc →
        (updRec it r).descs = bumpCount r.descs dc)) ∧
    ∀ e ∈ es, (xle e.tempMin e.tempMax = true ↔ tempsOfDay (e.dt / 86400) samples ≠ []) := by
  constructor
  · intro it r hmain
    refine ⟨?_, ?_, ?_⟩
    · rw [updRec_temps, hmain]
      simp [Option.toList]
    · intro ic hic
      rw [updRec_icons, hic]
    · intro dc hdc
      rw [updRec_descs, hdc]
  · intro e he
    have hes : es = tier3Days (some samples) count := by
      rw [getForecast10Days_thirdTier count t1 t2 (some samples) h1 h2] at hres
      split at hres
      · cases hres
      · injection hres with h'
        exact h'.symm
    subst hes
    obtain ⟨k, r, hkr, hpe, hdt⟩ := tier3Days_entry (some samples) count e he
    simp only [Option.getD_some] at hkr
    obtain ⟨hdtk, hsne, htemps, hicons, hdescs⟩ := bucket_props _ _ _ hkr
    rw [hdt, ← hpe, synthEntry_minmax, htemps]

/-- Two samples on one day, the second lacking the `main` object. -/
def mixedSamples : List Sample :=
  [ { dt := 0, main := some 15, icon := some "04d", description := some "overcast clouds" }
  , { dt := 10800, main := none, icon := some "04d", description := some "overcast clouds" } ]

/-- Witness for C10 at the concrete `mixedSamples` input. -/
theorem noMain_minmax_iff_witness :
    (∀ (it : Sample) (r : DayRec), it.main = none →
      (updRec it r).temps = r.temps ∧
      (∀ ic, truthyStr it.icon = some ic → (updRec it r).icons = bumpCount r.icons ic) ∧
      (∀ dc, truthyStr it.description = some dc →
        (updRec it r).descs = bumpCount r.descs dc)) ∧
    ∀ e ∈ tier3Days (some mixedSamples) 10,
      (xle e.tempMin e.tempMax = true ↔ tempsOfDay (e.dt / 86400) mixedSamples ≠ []) :=
  noMain_minmax_iff 10 .netFail .netFail mixedSamples
    (tier3Days (some mixedSamples) 10) rfl rfl (by rfl)

/-! ### C1: the two-day third-tier synthesis -/

/-- C1: when the first two tiers yield nothing and the third tier returns 16
three-hour samples spanning exactly two UTC calendar days (each sample with a
temperature and truthy icon and description), `getForecast10Days` with count 2
returns exactly two chronologically ordered synthesized entries, each with
temp.min ≤ temp.max and with icon and description equal to a most-frequent
icon and description of that calendar day's samples. -/
theorem thirdTier_two_day_synthesis (count : ℤ)
    (t1 t2 : FetchResult (Option (List DailyEntry))) (samples : List Sample)
    (h1 : tierDaily t1 count = none) (h2 : tierDaily t2 count = none)
    (hcount : count = 2) (hlen : samples.length = 16)
    (hmain : ∀ s ∈ samples, s.main.isSome)
    (hicon : ∀ s ∈ samples, (truthyStr s.icon).isSome)
    (hdesc : ∀ s ∈ samples, (truthyStr s.description).isSome)
    (hdays : ((samples.map dayKey).dedup).length = 2) :
    ∃ es, getForecast10Days count t1 t2 (.resp true (some samples)) = .ok es ∧
      es.length = 2 ∧
      es.Pairwise (fun a b => a.dt < b.dt) ∧
      ∀ e ∈ es,
        xle e.tempMin e.tempMax = true ∧
        ∃ ic dc, e.weather = [{ icon := ic, description := dc }] ∧
          IsMode ic (iconsOfDay (e.dt / 86400) samples) ∧
          IsMode dc (descsOfDay (e.dt / 86400) samples) := by
  subst hcount
  have hlen2 : (buildBuckets samples).length = 2 := by
    rw [buildBuckets_length, hdays]
  have hperm := List.perm_insertionSort keyLE (buildBuckets samples)
  have hslen : (List.insertionSort keyLE (buildBuckets samples)).length = 2 := by
    rw [hperm.length_eq, hlen2]
  have hclamp : clampCount 2 = 2 := by decide
  have htake : (List.insertionSort keyLE (buildBuckets samples)).take (clampCount 2) =
      List.insertionSort keyLE (buildBuckets samples) := by
    apply List.take_of_length_le
    rw [hslen, hclamp]
  have ht3 : tier3Days (some samples) 2 =
      (List.insertionSort keyLE (buildBuckets samples)).map (fun p => synthEntry p.2) := by
    unfold tier3Days
    simp only [Option.getD_some]
    rw [htake]
  have hteslen : (tier3Days (some samples) 2).length = 2 := by
    rw [ht3, List.length_map, hslen]
  have hne : (tier3Days (some samples) 2).isEmpty = false := by
    cases h : tier3Days (some samples) 2 with
    | nil => rw [h] at hteslen; cases hteslen
    | cons a l => rfl
  refine ⟨tier3Days (some samples) 2, ?_, hteslen, ?_, ?_⟩
  · rw [getForecast10Days_thirdTier 2 t1 t2 (some samples) h1 h2, hne]
    simp
  · -- chronological order of the synthesized entries
    have hsorted : (List.insertionSort keyLE (buildBuckets samples)).Pairwise keyLE :=
      List.sorted_insertionSort keyLE (buildBuckets samples)
    have hnd : ((List.insertionSort keyLE (buildBuckets samples)).map Prod.fst).Nodup :=
      (hperm.map Prod.fst).symm.nodup (buildBuckets_keys_nodup samples)
    have hpairNe : (List.insertionSort keyLE (buildBuckets samples)).Pairwise
        (fun p q => p.1 ≠ q.1) := List.pairwise_map.mp hnd
    have hlt : (List.insertionSort keyLE (buildBuckets samples)).Pairwise
        (fun p q => p.1 < q.1) :=
      (hsorted.and hpairNe).imp (fun hab => lt_of_le_of_ne hab.1 hab.2)
    rw [ht3, List.pairwise_map]
    refine hlt.imp_of_mem ?_
    intro p q hp hq hpq
    have hp' : p ∈ buildBuckets samples := hperm.subset hp
    have hq' : q ∈ buildBuckets samples := hperm.subset hq
    obtain ⟨kp, rp⟩ := p
    obtain ⟨kq, rq⟩ := q
    have hdp := (bucket_props samples kp rp hp').1
    have hdq := (bucket_props samples kq rq hq').1
    rw [synthEntry_dt, synthEntry_dt]
    by_contra hcon
    push_neg at hcon
    have hdiv : rq.dt / 86400 ≤ rp.dt / 86400 := Nat.div_le_div_right hcon
    rw [hdp, hdq] at hdiv
    simp only at hpq
    omega
  · -- per-entry min ≤ max and dominant icon/description
    intro e he
    obtain ⟨k, r, hkr, hpe, hdt⟩ := tier3Days_entry (some samples) 2 e he
    simp only [Option.getD_some] at hkr
    obtain ⟨hdtk, ⟨s0, rest0, hs0⟩, htemps, hicons, hdescs⟩ := bucket_props _ _ _ hkr
    have hs0mem : s0 ∈ samples := by
      have : s0 ∈ samplesOfDay k samples := by
        rw [hs0]
        exact List.mem_cons_self _ _
      exact (List.mem_filter.mp this).1
    have htne : tempsOfDay k samples ≠ [] := by
      rw [tempsOfDay, hs0]
      have h' := hmain s0 hs0mem
      cases hm : s0.main with
      | none => rw [hm] at h'; cases h'
      | some t => simp [List.filterMap_cons, hm]
    have hicne : iconsOfDay k samples ≠ [] := by
      rw [iconsOfDay, hs0]
      have h' := hicon s0 hs0mem
      cases hm : truthyStr s0.icon with
      | none => rw [hm] at h'; cases h'
      | some t => simp [List.filterMap_cons, hm]
    have hdcne : descsOfDay k samples ≠ [] := by
      rw [descsOfDay, hs0]
      have h' := hdesc s0 hs0mem
      cases hm : truthyStr s0.description with
      | none => rw [hm] at h'; cases h'
      | some t => simp [List.filterMap_cons, hm]
    have hicnb : ∀ x ∈ iconsOfDay k samples, x ≠ "" := by
      intro x hx
      rw [iconsOfDay] at hx
      obtain ⟨s', hs', hts⟩ := List.mem_filterMap.mp hx
      exact truthyStr_ne_empty _ _ hts
    constructor
    · rw [← hpe, synthEntry_minmax, htemps]
      exact htne
    · have hw := synthEntry_weather_mode r (iconsOfDay k samples) (descsOfDay k samples)
        hicons hdescs hicne hdcne hicnb
      rw [hdt, ← hpe]
      exact hw

/-- Sixteen concrete three-hour samples spanning exactly two UTC days. -/
def sixteenSamples : List Sample :=
  [ { dt := 0, main := some 20, icon := some "01d", description := some "clear sky" }
  , { dt := 10800, main := some 21, icon := some "01d", description := some "clear sky" }
  , { dt := 21600, main := some 24, icon := some "02d", description := some "few clouds" }
  , { dt := 32400, main := some 26, icon := some "01d", description := some "clear sky" }
  , { dt := 43200, main := some 27, icon := some "02d", description := some "few clouds" }
  , { dt := 54000, main := some 25, icon := some "01d", description := some "clear sky" }
  , { dt := 64800, main := some 22, icon := some "01d", description := some "clear sky" }
  , { dt := 75600, main := some 19, icon := some "02d", description := some "few clouds" }
  , { dt := 86400, main := some 18, icon := some "10d", description := some "light rain" }
  , { dt := 97200, main := some 17, icon := some "10d", description := some "light rain" }
  , { dt := 108000, main := some 19, icon := some "10d", description := some "light rain" }
  , { dt := 118800, main := some 21, icon := some "01d", description := some "clear sky" }
  , { dt := 129600, main := some 22, icon := some "10d", description := some "light rain" }
  , { dt := 140400, main := some 20, icon := some "10d", description := some "light rain" }
  , { dt := 151200, main := some 18, icon := some "01d", description := some "clear sky" }
  , { dt := 162000, main := some 16, icon := some "10d", description := some "light rain" } ]

/-- Witness for C1: the sixteen concrete samples above, with both earlier
tiers failing on the network. -/
theorem thirdTier_two_day_synthesis_witness :
    sixteenSamples.length = 16 ∧
    ((sixteenSamples.map dayKey).dedup).length = 2 ∧
    (∃ es, getForecast10Days 2 .netFail .netFail (.resp true (some sixteenSamples)) = .ok es ∧
      es.length = 2 ∧
      es.Pairwise (fun a b => a.dt < b.dt) ∧
      ∀ e ∈ es,
        xle e.tempMin e.tempMax = true ∧
        ∃ ic dc, e.weather = [{ icon := ic, description := dc }] ∧
          IsMode ic (iconsOfDay (e.dt / 86400) sixteenSamples) ∧
          IsMode dc (descsOfDay (e.dt / 86400) sixteenSamples)) :=
  ⟨by decide, by decide,
    thirdTier_two_day_synthesis 2 .netFail .netFail sixteenSamples rfl rfl rfl
      (by decide) (by decide) (by decide) (by decide) (by decide)⟩
